import Mathlib

/-!
Verification of the rct transport core against its specification.

Shallow embedding of the two source files:
- src/rct/Connection.cpp : message framing over a socket (receive loop,
  send path, write-completion lifecycle, buffer reassembly helpers).
- src/rct/Process_Windows.cpp : child-process runner (spawn, pipe reader
  workers, finalization).

Machine integers are embedded as Nat/Int with explicit mod 2 ^ 32 where the
C++ performs unsigned arithmetic or signed/unsigned conversions. External
collaborators that are out of scope of the sources (Serializer byte order,
the decode registry, the event loop, the OS pipe and process primitives)
are modelled from the spec where noted.
-/

namespace Rct

/-! ## Buffer reassembly (Connection.cpp lines 89-128)

A queued chunk is a `List Nat` of byte values; the queue is a list of
chunks in arrival order (the LinkedList of Buffer objects). -/

/-- Mathematical total of all chunk sizes (what the spec calls totalBytes). -/
def totalBytes (bs : List (List Nat)) : Nat :=
  (bs.map List.length).sum

/-- bufferSize (lines 89-96): sums the chunk sizes in an unsigned int,
hence modulo 2 ^ 32. -/
def bufferSize (bs : List (List Nat)) : Nat :=
  totalBytes bs % 2 ^ 32

/-- Loop body of bufferRead (lines 102-126), entered with rem > 0 in the
source. For each chunk: copy cur = min(size, rem) bytes; a fully consumed
chunk is erased, a partially consumed chunk is shrunk in place to its
remaining suffix; return as soon as rem reaches 0. Returns the copied
bytes together with the remaining queue. -/
def bufferReadGo : List (List Nat) → Nat → List Nat × List (List Nat)
  | [], _ => ([], [])
  | b :: bs, rem =>
    let cur := min b.length rem
    if cur = b.length then
      if rem = cur then
        (b.take cur, bs)
      else
        let r := bufferReadGo bs (rem - cur)
        (b.take cur ++ r.1, r.2)
    else
      (b.take cur, b.drop cur :: bs)

/-- bufferRead (lines 98-128): size 0 returns immediately with the queue
untouched, otherwise drains chunks front to back. -/
def bufferRead (bs : List (List Nat)) (n : Nat) : List Nat × List (List Nat) :=
  if n = 0 then ([], bs) else bufferReadGo bs n

/-! ## Receive path (Connection.cpp lines 130-168)

mPendingRead is a C++ signed int: embedded as Int, with the
signed-to-unsigned conversions of lines 148 and 155 made explicit. -/

/-- Unsigned 32-bit value of the first four bytes, network byte order.
Modelled from the spec: the Serializer/Deserializer collaborators are not
under src/, and section 6 fixes the wire integer encoding to 4-byte fixed
network byte order. Missing bytes read as 0 (unreachable: callers pass
exactly four bytes). -/
def uint32OfBytes (b : List Nat) : Nat :=
  b.getD 0 0 * 2 ^ 24 + b.getD 1 0 * 2 ^ 16 + b.getD 2 0 * 2 ^ 8 + b.getD 3 0

/-- The Deserializer of line 144 streams the four header bytes into the
signed int mPendingRead: two-complement int32 value. -/
def int32OfBytes (b : List Nat) : Int :=
  let u := uint32OfBytes b
  if u < 2 ^ 31 then (u : Int) else (u : Int) - 2 ^ 32

/-- C++ conversion of a signed int to unsigned int (the implicit
conversions in the comparisons and calls of lines 148 and 155). -/
def intToUInt32 (i : Int) : Nat :=
  (i % (2 ^ 32 : Int)).toNat

/-- Connection state touched by the receive path. clientBuffer is the
socket client buffer (the chunk the stream currently holds); mBuffers the
reassembly queue; emitted records, in order, each byte buffer handed to
the decode registry Messages.create at line 157 (per the spec every
decodable frame is then emitted synchronously as one message event). -/
structure RConn where
  clientBuffer : List Nat
  mBuffers : List (List Nat)
  mPendingRead : Int
  emitted : List (List Nat)
deriving DecidableEq

/-- Outcome of one iteration of the while loop: break out or continue. -/
inductive LoopRes
  | brk (st : RConn)
  | cont (st : RConn)
deriving DecidableEq

/-- Line 135: move the socket client chunk into the reassembly queue;
the moved-from buffer is left empty. -/
def pushChunk (st : RConn) : RConn :=
  { st with clientBuffer := [], mBuffers := st.mBuffers ++ [st.clientBuffer] }

/-- Lines 141-145: consume four bytes from the queue and deserialize them
into mPendingRead. -/
def readHeader (st : RConn) : RConn :=
  { st with
    mBuffers := (bufferRead st.mBuffers 4).2,
    mPendingRead := int32OfBytes (bufferRead st.mBuffers 4).1 }

/-- Lines 150-165: consume mPendingRead bytes (converted to unsigned for
the bufferRead call), hand them to the decode registry, reset
mPendingRead to 0. -/
def readPayload (st : RConn) : RConn :=
  { st with
    mBuffers := (bufferRead st.mBuffers (intToUInt32 st.mPendingRead)).2,
    emitted := st.emitted ++ [(bufferRead st.mBuffers (intToUInt32 st.mPendingRead)).1],
    mPendingRead := 0 }

/-- Lines 148-165: the payload part of the loop body. The comparison at
line 148 is unsigned int against int, so mPendingRead is converted to
unsigned. -/
def payloadPhase (st : RConn) (available : Nat) : LoopRes :=
  if available < intToUInt32 st.mPendingRead then
    LoopRes.brk st
  else
    LoopRes.cont (readPayload st)

/-- One iteration of the while loop of dataAvailable (lines 132-167):
break when the socket buffer is empty (line 133), move the chunk in,
read a header when mPendingRead is 0, then the payload phase. -/
def loopBody (st : RConn) : LoopRes :=
  if st.clientBuffer = [] then
    LoopRes.brk st
  else
    let st1 := pushChunk st
    let available := bufferSize st1.mBuffers
    if st1.mPendingRead = 0 then
      if available < 4 then
        LoopRes.brk st1
      else
        payloadPhase (readHeader st1) (available - 4)
    else
      payloadPhase st1 available

/-- The state carried by either loop outcome. -/
def resState : LoopRes → RConn
  | LoopRes.brk st => st
  | LoopRes.cont st => st

/-- Fueled unfolding of the while (true) loop. -/
def goLoop : Nat → RConn → RConn
  | 0, st => st
  | Nat.succ n, st =>
    match loopBody st with
    | LoopRes.brk st' => st'
    | LoopRes.cont st' => goLoop n st'

/-- Connection.dataAvailable (lines 130-168). Fuel 2 is exact: an
iteration that continues has moved the socket chunk out, so the next
iteration hits the line 133 empty check and breaks (see goLoop_fixed). -/
def dataAvailable (st : RConn) : RConn :=
  goLoop 2 st

/-! ## Send path and write completion (Connection.cpp lines 51-87, 170-182) -/

/-- Connection state touched by the send path: the connection status and
silent flag read by send, the signed int mPendingWrite, and the mDone
flag set by finish. -/
structure Conn where
  connected : Bool
  silent : Bool
  pendingWrite : Int
  done : Bool
deriving DecidableEq

/-- Side effects requested by dataWritten: the mSendComplete signal, the
socket close, and the EventLoop deleteLater call (per the spec the
deferred-task primitive of the external event loop, which runs the
destruction on the next event-loop turn, never synchronously). -/
inductive WAct
  | sendComplete
  | closeClient
  | deleteLater
deriving DecidableEq

/-- Four-byte fixed network byte order encoding of an unsigned 32-bit
value. Modelled from the spec: the Serializer collaborator is not under
src/; section 6 fixes the wire integer encoding. -/
def serialize32 (n : Nat) : List Nat :=
  [n / 2 ^ 24 % 256, n / 2 ^ 16 % 256, n / 2 ^ 8 % 256, n % 256]

/-- Serialization of the signed int message id (line 68). -/
def serializeInt32 (i : Int) : List Nat :=
  serialize32 (intToUInt32 i)

/-- Result of Connection.send: the updated state, the returned bool, and
the byte strings handed to SocketClient.write, in order. -/
structure SendOut where
  st : Conn
  ok : Bool
  writes : List (List Nat)
deriving DecidableEq

/-- Connection.send (lines 51-76). An empty message returns true at once
(line 53); an unconnected client logs an error and returns false (line
56); silent mode returns true without writing (line 61). Otherwise data
is the serialized id followed by the message bytes, header the serialized
size of data; mPendingWrite grows by both sizes before the two writes,
and the writes short-circuit: when the stream rejects the header, the
data write is never issued. acceptHeader and acceptData are the results
the stream returns for the two write calls. -/
def send (st : Conn) (id : Int) (message : List Nat)
    (acceptHeader acceptData : Bool) : SendOut :=
  if message = [] then
    ⟨st, true, []⟩
  else if st.connected = false then
    ⟨st, false, []⟩
  else if st.silent then
    ⟨st, true, []⟩
  else
    let data := serializeInt32 id ++ message
    let header := serialize32 data.length
    let st' : Conn :=
      { st with pendingWrite := st.pendingWrite + (header.length + data.length) }
    if acceptHeader then
      ⟨st', acceptData, [header, data]⟩
    else
      ⟨st', false, [header]⟩

/-- Connection.dataWritten (lines 170-182): subtract the completed byte
count, and when mPendingWrite reaches 0 emit mSendComplete only for a
nonzero count, then close and schedule destruction when mDone is set. -/
def dataWritten (st : Conn) (bytes : Int) : Conn × List WAct :=
  let st' : Conn := { st with pendingWrite := st.pendingWrite - bytes }
  if st'.pendingWrite = 0 then
    (st',
      (if bytes = 0 then [] else [WAct.sendComplete]) ++
        (if st.done then [WAct.closeClient, WAct.deleteLater] else []))
  else
    (st', [])

/-- Connection.finish (lines 83-87): set mDone, then run the synthetic
zero-byte write completion. -/
def finish (st : Conn) : Conn × List WAct :=
  dataWritten { st with done := true } 0

/-- One operation of a send/completion interleaving: an accepted send of
a message, or a write-completion notification for n bytes. -/
inductive COp
  | sendOp (id : Int) (msg : List Nat)
  | writtenOp (n : Nat)
deriving DecidableEq

/-- Run a sequence of operations: sends are issued with both stream
writes accepted, completions feed dataWritten. -/
def runOps : Conn → List COp → Conn
  | st, [] => st
  | st, COp.sendOp id msg :: ops => runOps (send st id msg true true).st ops
  | st, COp.writtenOp n :: ops => runOps (dataWritten st n).1 ops

/-- Wire bytes contributed by one operation to the enqueued total: header
(4) plus data (4-byte id plus message). -/
def opSent : COp → Nat
  | COp.sendOp _ msg => 8 + msg.length
  | COp.writtenOp _ => 0

/-- Bytes acknowledged by one operation. -/
def opAcked : COp → Nat
  | COp.sendOp _ _ => 0
  | COp.writtenOp n => n

/-- Total bytes enqueued by the accepted sends of a run. -/
def sentBytes (ops : List COp) : Nat :=
  (ops.map opSent).sum

/-- Total bytes acknowledged by the completions of a run. -/
def ackedBytes (ops : List COp) : Nat :=
  (ops.map opAcked).sum

/-- Every send operation in the run carries a nonempty message. -/
def sendsNonempty : List COp → Bool
  | [] => true
  | COp.sendOp _ msg :: ops => !msg.isEmpty && sendsNonempty ops
  | COp.writtenOp _ :: ops => sendsNonempty ops

/-! ## Pipe reader workers (Process_Windows.cpp lines 159-198)

A pipe is modelled from the spec as the sequence of chunks that blocking
ReadFile calls will deliver, followed by the broken-pipe condition once
the list is exhausted. -/

/-- The pipe handle a worker is created for (the f_pipe argument). -/
inductive PipeId
  | stdIn
  | stdOut
  | stdErr
deriving DecidableEq

/-- Process events: the two per-stream data-ready signals passed to the
workers, and the invocation of process finalization after a worker loop
ends. -/
inductive PEvent
  | readyReadStdOut
  | readyReadStdErr
  | finalizeInvoked
deriving DecidableEq

/-- Process state touched by the reader workers: the two child output
pipes, the two output buffers, and the emitted events in order. -/
structure PState where
  stdoutChunks : List (List Nat)
  stderrChunks : List (List Nat)
  mStdOutBuffer : List Nat
  mStdErrBuffer : List Nat
  events : List PEvent
deriving DecidableEq

/-- The while loop of readFromPipe (lines 170-195). Per line 172 the
ReadFile call always targets mStdOut[READ_END], and per line 176 every
successful read appends to mStdOutBuffer under the lock, whatever pipe
the worker was created for; the signal emitted is the one passed in.
The loop ends on the broken-pipe condition. -/
def readFromPipeGo (sig : PEvent) : List (List Nat) → PState → PState
  | [], st => st
  | chunk :: rest, st =>
    readFromPipeGo sig rest
      { st with
        stdoutChunks := rest,
        mStdOutBuffer := st.mStdOutBuffer ++ chunk,
        events := st.events ++ [sig] }

/-- Process.readFromPipe (lines 159-198). The f_pipe argument is cast to
void at line 163 and never used. After the loop, a worker holding the
finalizer role invokes process finalization (line 197). -/
def readFromPipe (st : PState) (f_pipe : PipeId) (sig : PEvent)
    (execAfter : Bool) : PState :=
  let st' := readFromPipeGo sig st.stdoutChunks st
  if execAfter then
    { st' with events := st'.events ++ [PEvent.finalizeInvoked] }
  else
    st'

/-! ## Process finalization under concurrency (Process_Windows.cpp
lines 200-222)

waitForProcessToFinish decomposed into its atomic steps, so that two
caller contexts can be interleaved: pc 0 is the handle-validity check of
line 202, pc 1 the WaitForSingleObject call, pc 2 the exit-code fetch and
store (lines 212-214), pc 3 the mFinished emission (line 217), pc 4 the
handle invalidation (lines 220-221), pc 5 the return. The function takes
no lock and has no completion flag. -/

/-- Shared state plus one program counter per caller context. -/
structure FinSt where
  handleValid : Bool
  fetchCount : Nat
  finishedCount : Nat
  pcA : Nat
  pcB : Nat
deriving DecidableEq

/-- One atomic step of waitForProcessToFinish at program counter pc,
returning the updated shared state and the next pc. -/
def finStepAt (st : FinSt) (pc : Nat) : FinSt × Nat :=
  match pc with
  | 0 => if st.handleValid then (st, 1) else (st, 5)
  | 1 => (st, 2)
  | 2 => ({ st with fetchCount := st.fetchCount + 1 }, 3)
  | 3 => ({ st with finishedCount := st.finishedCount + 1 }, 4)
  | 4 => ({ st with handleValid := false }, 5)
  | _ => (st, pc)

/-- Advance the caller context selected by t (false: context A, true:
context B) by one atomic step. -/
def finSched (st : FinSt) (t : Bool) : FinSt :=
  if t then
    let r := finStepAt st st.pcB
    { r.1 with pcB := r.2 }
  else
    let r := finStepAt st st.pcA
    { r.1 with pcA := r.2 }

/-- Run a schedule: an interleaving of atomic steps of the two caller
contexts. -/
def runFinSched : FinSt → List Bool → FinSt
  | st, [] => st
  | st, t :: ts => runFinSched (finSched st t) ts

/-! ## Spawn (Process_Windows.cpp lines 71-157) -/

/-- Outcomes of the OS calls made during one spawn attempt, in program
order: the three CreatePipe calls, the three SetHandleInformation calls,
and CreateProcess. -/
structure SpawnOracle where
  createPipeStdIn : Bool
  createPipeStdOut : Bool
  createPipeStdErr : Bool
  setInfoStdIn : Bool
  setInfoStdOut : Bool
  setInfoStdErr : Bool
  createProcessOk : Bool
deriving DecidableEq

/-- Which of the six pipe handles held in mStdIn, mStdOut, mStdErr are
open (not INVALID_HANDLE_VALUE). -/
structure Handles where
  stdInRead : Bool
  stdInWrite : Bool
  stdOutRead : Bool
  stdOutWrite : Bool
  stdErrRead : Bool
  stdErrWrite : Bool
deriving DecidableEq

/-- All six handles closed. -/
def Handles.allClosed : Handles :=
  ⟨false, false, false, false, false, false⟩

/-- Number of open pipe handles. -/
def openHandleCount (h : Handles) : Nat :=
  (if h.stdInRead then 1 else 0) + (if h.stdInWrite then 1 else 0) +
    (if h.stdOutRead then 1 else 0) + (if h.stdOutWrite then 1 else 0) +
    (if h.stdErrRead then 1 else 0) + (if h.stdErrWrite then 1 else 0)

/-- The execution states returned by startInternal (the subset of the
source enum it produces). -/
inductive ExecState
  | Done
  | Error
deriving DecidableEq

/-- Result of a spawn attempt: return value, the pipe handles left open
at the return, and the number of reader worker threads started. -/
structure SpawnRes where
  ret : ExecState
  handles : Handles
  readersStarted : Nat
deriving DecidableEq

/-- Process.startInternal (lines 71-157). The three CreatePipe calls
short-circuit (line 87), each successful call opening its two handles;
SetHandleInformation failures (line 96) and CreateProcess failure (line
121) return Error with every handle created so far still open; on
success the parent write ends of stdout and stderr are closed (lines
140-141) and the two reader workers are started (lines 148-154). No
failure path closes any handle before returning. -/
def startInternal (o : SpawnOracle) : SpawnRes :=
  if o.createPipeStdIn = false then
    ⟨ExecState.Error, Handles.allClosed, 0⟩
  else if o.createPipeStdOut = false then
    ⟨ExecState.Error, ⟨true, true, false, false, false, false⟩, 0⟩
  else if o.createPipeStdErr = false then
    ⟨ExecState.Error, ⟨true, true, true, true, false, false⟩, 0⟩
  else if (o.setInfoStdIn && o.setInfoStdOut && o.setInfoStdErr) = false then
    ⟨ExecState.Error, ⟨true, true, true, true, true, true⟩, 0⟩
  else if o.createProcessOk = false then
    ⟨ExecState.Error, ⟨true, true, true, true, true, true⟩, 0⟩
  else
    ⟨ExecState.Done, ⟨true, true, true, false, true, false⟩, 2⟩

/-- The destructor (lines 26-39) closes every still-valid handle. -/
def closeAllHandles (_h : Handles) : Handles :=
  Handles.allClosed

/-! ## Helper lemmas -/

/-- The unsigned running sum never exceeds the mathematical total. -/
lemma bufferSize_le_totalBytes (bs : List (List Nat)) :
    bufferSize bs ≤ totalBytes bs :=
  Nat.mod_le _ _

/-- Core correctness of the bufferRead loop: with enough buffered bytes it
copies exactly the first n bytes of the concatenation and leaves the
concatenation of the remaining queue equal to the rest. -/
lemma bufferReadGo_spec (bs : List (List Nat)) :
    ∀ n, 0 < n → n ≤ totalBytes bs →
      (bufferReadGo bs n).1 = bs.flatten.take n ∧
        (bufferReadGo bs n).2.flatten = bs.flatten.drop n := by
  induction bs with
  | nil =>
    intro n hn h
    simp only [totalBytes, List.map_nil, List.sum_nil] at h
    omega
  | cons b bs ih =>
    intro n hn h
    have htot : totalBytes (b :: bs) = b.length + totalBytes bs := by
      simp [totalBytes]
    simp only [bufferReadGo]
    split_ifs with hcur hrem
    · have hn' : n = b.length := by omega
      constructor
      · simp [hcur, hn', List.take_append_eq_append_take]
      · simp [hn', List.drop_append_eq_append_drop]
    · have hbl : b.length ≤ n := by omega
      have hlt : b.length < n := by
        rcases Nat.lt_or_ge b.length n with hc | hc
        · exact hc
        · omega
      rw [hcur]
      have h1 : 0 < n - b.length := by omega
      have h2 : n - b.length ≤ totalBytes bs := by omega
      obtain ⟨ih1, ih2⟩ := ih (n - b.length) h1 h2
      constructor
      · simp only [List.flatten_cons, List.take_append_eq_append_take,
          List.take_of_length_le hbl, List.take_length]
        rw [ih1]
      · simp only [List.flatten_cons, List.drop_append_eq_append_drop,
          List.drop_of_length_le hbl, List.nil_append]
        rw [ih2]
    · have hlt : n < b.length := by omega
      rw [Nat.min_eq_right (Nat.le_of_lt hlt)]
      have hz : n - b.length = 0 := by omega
      constructor
      · simp [List.take_append_eq_append_take, hz]
      · simp [List.drop_append_eq_append_drop, hz]

/-- bufferRead with enough buffered bytes: copied bytes are the first n of
the concatenation, the remaining queue concatenates to the rest. -/
lemma bufferRead_spec (bs : List (List Nat)) (n : Nat) (h : n ≤ totalBytes bs) :
    (bufferRead bs n).1 = bs.flatten.take n ∧
      (bufferRead bs n).2.flatten = bs.flatten.drop n := by
  unfold bufferRead
  by_cases hn : n = 0
  · subst hn
    simp
  · simp only [if_neg hn]
    exact bufferReadGo_spec bs n (Nat.pos_of_ne_zero hn) h

/-- The concatenation of the queue has length totalBytes. -/
lemma flatten_length_totalBytes (bs : List (List Nat)) :
    bs.flatten.length = totalBytes bs := by
  simp [totalBytes, List.length_flatten]

/-- An empty socket buffer makes the loop body break at once (line 133). -/
lemma loopBody_empty (st : RConn) (h : st.clientBuffer = []) :
    loopBody st = LoopRes.brk st := by
  simp [loopBody, h]

/-- A continuing loop iteration leaves the socket buffer empty (the chunk
was moved out at line 135) and mPendingRead at 0 (line 165). -/
lemma loopBody_cont (st st' : RConn) (h : loopBody st = LoopRes.cont st') :
    st'.clientBuffer = [] ∧ st'.mPendingRead = 0 := by
  by_cases hcb : st.clientBuffer = []
  · rw [loopBody_empty st hcb] at h
    cases h
  · simp only [loopBody, if_neg hcb, payloadPhase] at h
    split_ifs at h <;> cases h <;> simp [readPayload, readHeader, pushChunk]

/-- After one loop iteration, mPendingRead is unchanged, or 0, or — only
when the iteration was entered awaiting a header (mPendingRead = 0) — the
int32 decoding of the first four buffered bytes (the consumed frame
header). -/
lemma loopBody_pendingRead (st : RConn) :
    (resState (loopBody st)).mPendingRead = st.mPendingRead ∨
      (resState (loopBody st)).mPendingRead = 0 ∨
      (st.mPendingRead = 0 ∧
        (resState (loopBody st)).mPendingRead =
          int32OfBytes ((st.mBuffers.flatten ++ st.clientBuffer).take 4)) := by
  by_cases hcb : st.clientBuffer = []
  · rw [loopBody_empty st hcb]
    left
    rfl
  · simp only [loopBody, if_neg hcb, payloadPhase]
    split_ifs with h1 h2 h3 h4
    · -- header incomplete (line 139): break with mPendingRead unchanged
      left
      simp [resState, pushChunk]
    · -- header read, payload incomplete: mPendingRead is the decoded header
      right; right
      refine ⟨by simpa [pushChunk] using h1, ?_⟩
      have h4le : 4 ≤ totalBytes (pushChunk st).mBuffers := by
        have := bufferSize_le_totalBytes (pushChunk st).mBuffers
        omega
      have hfst := (bufferRead_spec (pushChunk st).mBuffers 4 h4le).1
      simp only [resState, readHeader]
      rw [hfst]
      simp [pushChunk, List.flatten_append]
    · -- header read, payload consumed: mPendingRead reset to 0
      right; left
      simp [resState, readPayload]
    · -- mid-payload, still incomplete: break with mPendingRead unchanged
      left
      simp [resState, pushChunk]
    · -- mid-payload, payload consumed: reset to 0
      right; left
      simp [resState, readPayload]

/-- The while loop runs at most two iterations: a continuing iteration
empties the socket buffer, so the next one breaks. Fuel 2 in
dataAvailable is therefore exact. -/
lemma goLoop_fixed (n : Nat) (st : RConn) :
    goLoop (n + 2) st = goLoop 2 st := by
  cases hb : loopBody st with
  | brk st' => simp [goLoop, hb]
  | cont st' =>
    have hc := loopBody_cont st st' hb
    simp [goLoop, hb, loopBody_empty st' hc.1]

/-- An accepted send of a nonempty message on a connected, non-silent
connection adds exactly header (4) plus data (4 + message) bytes to
mPendingWrite and changes nothing else it reads. -/
lemma send_accepted_pendingWrite (st : Conn) (id : Int) (msg : List Nat)
    (hm : msg ≠ []) (hc : st.connected = true) (hs : st.silent = false) :
    (send st id msg true true).st.pendingWrite
        = st.pendingWrite + ((8 + msg.length : Nat) : Int) ∧
      (send st id msg true true).st.connected = true ∧
      (send st id msg true true).st.silent = false := by
  refine ⟨?_, ?_, ?_⟩ <;>
    simp [send, hm, hc, hs, serializeInt32, serialize32] <;>
    push_cast <;>
    ring

/-- dataWritten only changes mPendingWrite, subtracting the byte count. -/
lemma dataWritten_state (st : Conn) (bytes : Int) :
    (dataWritten st bytes).1 = { st with pendingWrite := st.pendingWrite - bytes } := by
  simp only [dataWritten]
  split_ifs <;> rfl

/-- sendsNonempty is stable under taking a prefix. -/
lemma sendsNonempty_take (ops : List COp) :
    ∀ k, sendsNonempty ops = true → sendsNonempty (List.take k ops) = true := by
  induction ops with
  | nil =>
    intro k _
    simp [sendsNonempty]
  | cons op ops ih =>
    intro k h
    cases k with
    | zero => simp [sendsNonempty]
    | succ k =>
      cases op with
      | sendOp id msg =>
        simp only [List.take_succ_cons, sendsNonempty, Bool.and_eq_true] at h ⊢
        exact ⟨h.1, ih k h.2⟩
      | writtenOp n =>
        simp only [List.take_succ_cons, sendsNonempty] at h ⊢
        exact ih k h

/-- Running any interleaving of accepted nonempty sends and completions:
mPendingWrite moves by enqueued minus acknowledged bytes, and the
connection and silent flags are untouched. -/
lemma runOps_state (ops : List COp) :
    ∀ st : Conn, st.connected = true → st.silent = false →
      sendsNonempty ops = true →
      (runOps st ops).pendingWrite
          = st.pendingWrite + (sentBytes ops : Int) - (ackedBytes ops : Int) ∧
        (runOps st ops).connected = true ∧ (runOps st ops).silent = false := by
  induction ops with
  | nil =>
    intro st hc hs _
    simp [runOps, sentBytes, ackedBytes, hc, hs]
  | cons op ops ih =>
    intro st hc hs hne
    cases op with
    | sendOp id msg =>
      simp only [sendsNonempty, Bool.and_eq_true, Bool.not_eq_true'] at hne
      have hm : msg ≠ [] := by
        cases msg with
        | nil => simp [List.isEmpty] at hne
        | cons a l => simp
      obtain ⟨hpw, hcc, hss⟩ := send_accepted_pendingWrite st id msg hm hc hs
      simp only [runOps]
      obtain ⟨e1, e2, e3⟩ := ih (send st id msg true true).st hcc hss hne.2
      refine ⟨?_, e2, e3⟩
      rw [e1, hpw]
      simp only [sentBytes, ackedBytes, opSent, opAcked, List.map_cons, List.sum_cons]
      push_cast
      ring
    | writtenOp n =>
      simp only [sendsNonempty] at hne
      simp only [runOps, dataWritten_state]
      obtain ⟨e1, e2, e3⟩ :=
        ih { st with pendingWrite := st.pendingWrite - (n : Int) } hc hs hne
      refine ⟨?_, e2, e3⟩
      rw [e1]
      simp only [sentBytes, ackedBytes, opSent, opAcked, List.map_cons, List.sum_cons]
      push_cast
      ring

/-- The mSendComplete signal fires exactly when the completion drains
mPendingWrite to 0 with a nonzero byte count. -/
lemma sendComplete_mem_dataWritten (st : Conn) (b : Int) :
    WAct.sendComplete ∈ (dataWritten st b).2 ↔
      (st.pendingWrite - b = 0 ∧ ¬ b = 0) := by
  simp only [dataWritten]
  split_ifs with h1 h2 h3 <;> simp_all

/-! ## Claim theorems -/

/-- Claim C1: the claim states that a message sequence delivered under any
assignment of chunks to data-available notifications is emitted exactly
once per message. The code violates it: two complete frames delivered in
one chunk under one notification yield a single emission; the second
complete frame stays in the reassembly queue, because the loop breaks at
the line 133 empty-buffer check right after the first message. This
theorem evaluates the handler at that failing input. -/
theorem dataAvailable_second_frame_stalls :
    (dataAvailable ⟨[0, 0, 0, 4, 0, 0, 0, 1, 0, 0, 0, 4, 0, 0, 0, 2], [], 0, []⟩).emitted
        = [[0, 0, 0, 1]] ∧
      (dataAvailable
          ⟨[0, 0, 0, 4, 0, 0, 0, 1, 0, 0, 0, 4, 0, 0, 0, 2], [], 0, []⟩).mBuffers.flatten
        = [0, 0, 0, 4, 0, 0, 0, 2] ∧
      (dataAvailable
          ⟨[0, 0, 0, 4, 0, 0, 0, 1, 0, 0, 0, 4, 0, 0, 0, 2], [], 0, []⟩).clientBuffer
        = [] := by
  decide

/-- Claim C3: the claim states that one invocation delivers every complete
message already buffered. The code violates it: invoked with one complete
frame already queued and a chunk carrying a second complete frame, the
handler delivers only the first and returns with the second fully
buffered and undelivered (the loop breaks once the socket buffer is
empty). This theorem evaluates the handler at that failing input. -/
theorem dataAvailable_buffered_frame_undelivered :
    (dataAvailable ⟨[0, 0, 0, 4, 0, 0, 0, 3], [[0, 0, 0, 4, 0, 0, 0, 2]], 0, []⟩).emitted
        = [[0, 0, 0, 2]] ∧
      (dataAvailable
          ⟨[0, 0, 0, 4, 0, 0, 0, 3], [[0, 0, 0, 4, 0, 0, 0, 2]], 0, []⟩).mBuffers.flatten
        = [0, 0, 0, 4, 0, 0, 0, 3] := by
  decide

/-- Claim C6: consume copies exactly the first n bytes of the queued
concatenation, and the remaining queue concatenates to the original
byte sequence with its first n bytes removed, whenever n bytes are
buffered — no byte duplicated or skipped, for every chunk layout. -/
theorem bufferRead_consume_exact (bs : List (List Nat)) (n : Nat)
    (h : n ≤ totalBytes bs) :
    (bufferRead bs n).1 = bs.flatten.take n ∧
      (bufferRead bs n).1.length = n ∧
      (bufferRead bs n).2.flatten = bs.flatten.drop n := by
  obtain ⟨h1, h2⟩ := bufferRead_spec bs n h
  refine ⟨h1, ?_, h2⟩
  rw [h1, List.length_take, flatten_length_totalBytes]
  omega

/-- Witness for C6 at a queue whose chunk boundary does not align with
the consume size. -/
theorem bufferRead_consume_exact_witness :
    (bufferRead [[1, 2], [3, 4, 5]] 3).1
        = ([[1, 2], [3, 4, 5]] : List (List Nat)).flatten.take 3 ∧
      (bufferRead [[1, 2], [3, 4, 5]] 3).1.length = 3 ∧
      (bufferRead [[1, 2], [3, 4, 5]] 3).2.flatten
        = ([[1, 2], [3, 4, 5]] : List (List Nat)).flatten.drop 3 :=
  bufferRead_consume_exact [[1, 2], [3, 4, 5]] 3 (by decide)

/-- Claim C7: over any interleaving of accepted sends and well-formed
write completions (no prefix acknowledges more than was enqueued),
pendingWrite equals enqueued minus acknowledged bytes, never goes
negative, and reaches 0 exactly when everything is acknowledged. -/
theorem pendingWrite_balance (st0 : Conn) (ops : List COp)
    (hc : st0.connected = true) (hs : st0.silent = false)
    (hp : st0.pendingWrite = 0) (hne : sendsNonempty ops = true)
    (hpre : ∀ k, k ≤ ops.length →
      ackedBytes (List.take k ops) ≤ sentBytes (List.take k ops)) :
    (runOps st0 ops).pendingWrite = (sentBytes ops : Int) - (ackedBytes ops : Int) ∧
      (∀ k, k ≤ ops.length → 0 ≤ (runOps st0 (List.take k ops)).pendingWrite) ∧
      ((runOps st0 ops).pendingWrite = 0 ↔ ackedBytes ops = sentBytes ops) := by
  have hmain := runOps_state ops st0 hc hs hne
  refine ⟨?_, ?_, ?_⟩
  · rw [hmain.1, hp]
    ring
  · intro k hk
    have h2 := runOps_state (List.take k ops) st0 hc hs (sendsNonempty_take ops k hne)
    rw [h2.1, hp]
    have := hpre k hk
    omega
  · rw [hmain.1, hp]
    have := hpre ops.length (le_refl _)
    rw [List.take_length] at this
    omega

/-- Witness for C7: one accepted 1-byte-payload send (9 wire bytes)
followed by a 9-byte completion. -/
theorem pendingWrite_balance_witness :
    (runOps ⟨true, false, 0, false⟩ [COp.sendOp 1 [42], COp.writtenOp 9]).pendingWrite
      = (sentBytes [COp.sendOp 1 [42], COp.writtenOp 9] : Int)
        - (ackedBytes [COp.sendOp 1 [42], COp.writtenOp 9] : Int) :=
  (pendingWrite_balance ⟨true, false, 0, false⟩ [COp.sendOp 1 [42], COp.writtenOp 9]
    rfl rfl rfl (by decide) (by decide)).1

/-- Claim C8: finish on a drained connection closes the stream and
schedules destruction through the deferred deleteLater primitive, with no
sendComplete; and a completion reaching pendingWrite 0 emits sendComplete
exactly when its byte count is positive, so the synthetic zero-byte
completion of finish never emits it. -/
theorem finish_defers_destruction (st st' : Conn) (b : Int)
    (hp : st.pendingWrite = 0) (hb : 0 ≤ b) :
    (finish st).2 = [WAct.closeClient, WAct.deleteLater] ∧
      WAct.sendComplete ∉ (finish st).2 ∧
      (WAct.sendComplete ∈ (dataWritten st' b).2 ↔ st'.pendingWrite = b ∧ 0 < b) := by
  refine ⟨?_, ?_, ?_⟩
  · simp [finish, dataWritten, hp]
  · simp [finish, dataWritten, hp]
  · rw [sendComplete_mem_dataWritten]
    omega

/-- Witness for C8: finish on a drained connection, and a 5-byte
completion that drains a 5-byte backlog. -/
theorem finish_defers_destruction_witness :
    (finish ⟨true, false, 0, false⟩).2 = [WAct.closeClient, WAct.deleteLater] ∧
      WAct.sendComplete ∉ (finish ⟨true, false, 0, false⟩).2 ∧
      (WAct.sendComplete ∈ (dataWritten ⟨true, false, 5, false⟩ 5).2 ↔
        (⟨true, false, 5, false⟩ : Conn).pendingWrite = 5 ∧ (0 : Int) < 5) :=
  finish_defers_destruction ⟨true, false, 0, false⟩ ⟨true, false, 5, false⟩ 5 rfl
    (by decide)

/-- Claim C9 counterexample: the claim states PendingRead is never
negative, even for adversarial headers. Delivering the four header bytes
255 255 255 255 leaves mPendingRead at -1 after the handler returns: the
signed int header decode is negative and the line 148 unsigned comparison
treats it as a huge length, so the loop breaks with the negative value in
place. -/
theorem dataAvailable_negative_pendingRead_cex :
    (dataAvailable ⟨[255, 255, 255, 255], [], 0, []⟩).mPendingRead < 0 := by
  decide

/-- Claim C9 as amended: starting from a non-negative mPendingRead, one
handler invocation keeps it non-negative provided that, when the
invocation is entered awaiting a header (mPendingRead = 0, the only state
in which it consumes one), the four bytes at the front of the buffered
data decode to a non-negative int32 value. Invocations entered
mid-payload (mPendingRead > 0) consume no header and need no proviso:
the front bytes are then id/payload bytes. -/
theorem pendingRead_nonneg_of_header_nonneg (st : RConn)
    (h0 : 0 ≤ st.mPendingRead)
    (hh : st.mPendingRead = 0 →
      0 ≤ int32OfBytes ((st.mBuffers.flatten ++ st.clientBuffer).take 4)) :
    0 ≤ (dataAvailable st).mPendingRead := by
  unfold dataAvailable
  cases hb : loopBody st with
  | brk st' =>
    have hg : goLoop 2 st = st' := by simp [goLoop, hb]
    rw [hg]
    have hp := loopBody_pendingRead st
    rw [hb] at hp
    simp only [resState] at hp
    rcases hp with h | h | ⟨hz, h⟩
    · omega
    · omega
    · have := hh hz
      omega
  | cont st' =>
    have hc := loopBody_cont st st' hb
    have hg : goLoop 2 st = st' := by
      simp [goLoop, hb, loopBody_empty st' hc.1]
    rw [hg, hc.2]

/-- Witness for amended C9: an invocation entered mid-payload (a header
announcing 8 payload bytes was consumed earlier) receiving the partial
payload prefix 128 0 0 0, whose int32 decoding is negative — no header is
consumed, so the proviso is vacuous and mPendingRead stays at 8. -/
theorem pendingRead_nonneg_of_header_nonneg_witness :
    0 ≤ (dataAvailable ⟨[128, 0, 0, 0], [], 8, []⟩).mPendingRead :=
  pendingRead_nonneg_of_header_nonneg ⟨[128, 0, 0, 0], [], 8, []⟩
    (by decide) (by decide)

/-- Claim C10: sending an empty message returns success, issues no
writes, and leaves the state (including mPendingWrite) untouched,
whatever the connection state, silent mode, or stream write results —
the line 53 empty check precedes the connectivity and silent checks. -/
theorem send_empty_message_noop (st : Conn) (id : Int)
    (acceptHeader acceptData : Bool) :
    send st id [] acceptHeader acceptData = ⟨st, true, []⟩ :=
  rfl

/-- Claim C2: the claim states each worker drains its own pipe into its
own buffer. The code violates it: readFromPipe ignores f_pipe (line 163)
and always reads mStdOut[READ_END] (line 172) into mStdOutBuffer (line
176). Evaluated at the stderr worker as spawned at lines 152-154: with
bytes 9 9 pending on the stderr pipe and byte 7 on the stdout pipe, the
worker consumes the stdout pipe into the stdout buffer, emits the stderr
data-ready signal for it, and never touches the stderr pipe or buffer. -/
theorem readFromPipe_stderr_worker_misdirected :
    readFromPipe ⟨[[7]], [[9, 9]], [], [], []⟩ PipeId.stdErr PEvent.readyReadStdErr false
      = ⟨[], [[9, 9]], [7], [], [PEvent.readyReadStdErr]⟩ := by
  decide

/-- Claim C4: the claim states concurrent finalization fetches the exit
code once and fires finished once, guarded by a one-shot flag under the
lock. The code guards only on handle validity with no lock: under the
interleaving where both caller contexts pass the line 202 validity check
before either invalidates the handle, the exit code is fetched twice and
finished fires twice. -/
theorem waitForProcessToFinish_double_finish :
    (runFinSched ⟨true, 0, 0, 0, 0⟩
        [false, true, false, false, false, false, true, true, true, true]).finishedCount
        = 2 ∧
      (runFinSched ⟨true, 0, 0, 0, 0⟩
        [false, true, false, false, false, false, true, true, true, true]).fetchCount
        = 2 := by
  decide

/-- Claim C5 counterexample: the claim states no pipe handle created
during a failing spawn attempt is left open. With all six pipe handles
created and CreateProcess failing (a nonexistent executable), the call
returns Error and starts no reader, but every created pipe handle is
still open at the return. -/
theorem startInternal_launch_failure_cex :
    (startInternal ⟨true, true, true, true, true, true, false⟩).ret = ExecState.Error ∧
      (startInternal ⟨true, true, true, true, true, true, false⟩).readersStarted = 0 ∧
      openHandleCount (startInternal ⟨true, true, true, true, true, true, false⟩).handles
        ≠ 0 := by
  decide

/-- Claim C5 as amended: every failing spawn attempt returns an error
result and starts no reader worker; the pipe handles created during the
attempt remain held by the object and are all closed by the destructor,
not at the failure return. -/
theorem startInternal_failure_aborts (o : SpawnOracle)
    (h : o.createPipeStdIn = false ∨ o.createPipeStdOut = false
        ∨ o.createPipeStdErr = false ∨ o.setInfoStdIn = false
        ∨ o.setInfoStdOut = false ∨ o.setInfoStdErr = false
        ∨ o.createProcessOk = false) :
    (startInternal o).ret = ExecState.Error ∧
      (startInternal o).readersStarted = 0 ∧
      closeAllHandles (startInternal o).handles = Handles.allClosed := by
  rcases o with ⟨a, b, c, d, e, f, g⟩
  revert a b c d e f g
  decide

/-- Witness for amended C5: the stdout pipe creation fails. -/
theorem startInternal_failure_aborts_witness :
    (startInternal ⟨true, false, true, true, true, true, true⟩).ret = ExecState.Error ∧
      (startInternal ⟨true, false, true, true, true, true, true⟩).readersStarted = 0 ∧
      closeAllHandles (startInternal ⟨true, false, true, true, true, true, true⟩).handles
        = Handles.allClosed :=
  startInternal_failure_aborts ⟨true, false, true, true, true, true, true⟩ (by decide)

end Rct

